import Mathlib

/-!
Shallow embedding of the todo-application persistence layer.

The relational store is modelled as lists of rows; SQL `WHERE` clauses
become `List.filter` (preserving table order), `ORDER BY` becomes a
stable structural sort with respect to the comparison the statement
names, and `UPDATE` / `INSERT` become functions from a database value to
a new database value together with the reported row count.  Each method
of the `PgPersistence` class becomes a Lean function whose first
argument is the username bound at construction time.
-/

namespace TodoApp

/-- Lower-casing of one character, modelling SQL `lower` on ASCII. -/
def lowerChar (c : Char) : Char :=
  if c.val ≥ 65 && c.val ≤ 90 then Char.ofNat (c.toNat + 32) else c

/-- Lexicographic comparison of character sequences, modelling the text
ordering used by the store's `ORDER BY`. -/
def lexLe : List Char → List Char → Bool
  | [], _ => true
  | _ :: _, [] => false
  | a :: as, b :: bs => if a = b then lexLe as bs else decide (a < b)

/-- Case-insensitive string comparison: the store's `lower(x) <= lower(y)`. -/
def lowerLe (s t : String) : Bool :=
  lexLe (s.data.map lowerChar) (t.data.map lowerChar)

/-- Does the character sequence `s` start with `pat`? -/
def charsStartWith : List Char → List Char → Bool
  | _, [] => true
  | [], _ :: _ => false
  | a :: as, b :: bs => a == b && charsStartWith as bs

/-- Does the character sequence `s` contain `pat` as a contiguous block? -/
def charsContain : List Char → List Char → Bool
  | [], pat => pat.isEmpty
  | a :: as, pat => charsStartWith (a :: as) pat || charsContain as pat

/-- Substring test on strings, modelling `RegExp.test` with a literal
pattern, as used by `isUniqueConstraintViolation`. -/
def strContains (s pat : String) : Bool :=
  charsContain s.data pat.data

/-- A row of the `users` table. -/
structure UserRow where
  username : String
  password : String
deriving DecidableEq, Repr

/-- A row of the `todolists` table. -/
structure TodoListRow where
  id : Nat
  title : String
  username : String
deriving DecidableEq, Repr

/-- A row of the `todos` table. -/
structure TodoRow where
  id : Nat
  title : String
  done : Bool
  todolist_id : Nat
  username : String
deriving DecidableEq, Repr

/-- The relational store. -/
structure DB where
  users : List UserRow
  todolists : List TodoListRow
  todos : List TodoRow
deriving DecidableEq, Repr

/-- A todo-list row with its todos attached, as assembled in memory by
`sortedTodoLists` and `loadTodoList`. -/
structure TodoList where
  id : Nat
  title : String
  username : String
  todos : List TodoRow
deriving DecidableEq, Repr

/-- An error raised by the store; `message` is its string rendering. -/
structure DbError where
  message : String
deriving DecidableEq, Repr

/-- One run of the query executor `dbQuery`: the outcome handed back to
the caller, whether a connection was opened, and whether it was closed
again.  The source executes `connect`, then the statement, then `end`;
an error thrown by the statement skips the rest of the function body. -/
structure QueryRun (α : Type) where
  result : Except DbError α
  connected : Bool
  released : Bool

/-- The query executor: opens a connection, runs the statement (whose
outcome is the argument), and closes the connection only when execution
continues past the statement. -/
def dbQuery {α : Type} (outcome : Except DbError α) : QueryRun α :=
  match outcome with
  | Except.ok r => ⟨Except.ok r, true, true⟩
  | Except.error e => ⟨Except.error e, true, false⟩

/-- Query `SELECT password FROM users WHERE username = $1`. -/
def usersQuery (db : DB) (username : String) : List UserRow :=
  db.users.filter (fun u => u.username == username)

/-- The `authenticated` method; `compare` stands for `bcrypt.compare`.
The first argument is the username bound at construction, which the
method does not consult. -/
def authenticated (compare : String → String → Bool) (selfUsername : String)
    (db : DB) (username password : String) : Bool :=
  match usersQuery db username with
  | [] => false
  | u :: _ => compare password u.password

/-- Ordering of todo-list rows used by `ORDER BY lower(title) ASC`. -/
def listTitleLe (a b : TodoListRow) : Prop :=
  lowerLe a.title b.title = true

instance : DecidableRel listTitleLe :=
  fun a b => inferInstanceAs (Decidable (_ = true))

/-- Query `SELECT * FROM todolists WHERE username = $1 ORDER BY lower(title) ASC`. -/
def allTodoListsQuery (db : DB) (username : String) : List TodoListRow :=
  List.insertionSort listTitleLe (db.todolists.filter (fun l => l.username == username))

/-- Query `SELECT * FROM todos WHERE username = $1`. -/
def allTodosQuery (db : DB) (username : String) : List TodoRow :=
  db.todos.filter (fun t => t.username == username)

/-- The in-memory attachment step of `sortedTodoLists`: each list gets
the todos whose foreign key matches its id. -/
def attachTodos (allTodos : List TodoRow) (l : TodoListRow) : TodoList :=
  ⟨l.id, l.title, l.username, allTodos.filter (fun t => l.id == t.todolist_id)⟩

/-- The `isDoneTodoList` method. -/
def isDoneTodoList (todoList : TodoList) : Bool :=
  decide (todoList.todos.length > 0) && todoList.todos.all (fun t => t.done)

/-- The `hasUndoneTodos` method. -/
def hasUndoneTodos (todoList : TodoList) : Bool :=
  todoList.todos.any (fun t => !t.done)

/-- The `_partitionTodoLists` method: one pass pushing each list onto
`done` or `undone`, then `undone.concat(done)`. -/
def partitionTodoLists (todoLists : List TodoList) : List TodoList :=
  let done := todoLists.filter (fun l => isDoneTodoList l)
  let undone := todoLists.filter (fun l => !isDoneTodoList l)
  undone ++ done

/-- The `sortedTodoLists` method. -/
def sortedTodoLists (selfUsername : String) (db : DB) : List TodoList :=
  let allTodoLists := allTodoListsQuery db selfUsername
  let allTodos := allTodosQuery db selfUsername
  partitionTodoLists (allTodoLists.map (attachTodos allTodos))

/-- Boolean ordering of todo rows used by
`ORDER BY done ASC, lower(title) ASC` (`false` sorts before `true`). -/
def todoOrderB (a b : TodoRow) : Bool :=
  (!a.done && b.done) || (a.done == b.done && lowerLe a.title b.title)

/-- The same ordering as a relation. -/
def todoLe (a b : TodoRow) : Prop :=
  todoOrderB a b = true

instance : DecidableRel todoLe :=
  fun a b => inferInstanceAs (Decidable (_ = true))

/-- The `sortedTodos` method:
`SELECT * FROM todos WHERE todolist_id = $1 AND username = $2
 ORDER BY done ASC, lower(title) ASC`. -/
def sortedTodos (selfUsername : String) (db : DB) (todoList : TodoList) : List TodoRow :=
  List.insertionSort todoLe
    (db.todos.filter (fun t => t.todolist_id == todoList.id && t.username == selfUsername))

/-- The `loadTodoList` method: the list row and its todos, both filtered
by id and by the constructed identity; absent when no list row matches. -/
def loadTodoList (selfUsername : String) (db : DB) (todoListId : Nat) : Option TodoList :=
  let listRows := db.todolists.filter (fun l => l.id == todoListId && l.username == selfUsername)
  let todoRows := db.todos.filter
    (fun t => t.todolist_id == todoListId && t.username == selfUsername)
  match listRows with
  | [] => none
  | l :: _ => some ⟨l.id, l.title, l.username, todoRows⟩

/-- The `loadTodo` method. -/
def loadTodo (selfUsername : String) (db : DB) (todoListId todoId : Nat) : Option TodoRow :=
  (db.todos.filter
    (fun t => t.todolist_id == todoListId && t.id == todoId && t.username == selfUsername)).head?

/-- The `WHERE` filter of `toggleDoneTodo` and of `loadTodo`. -/
def toggleMatches (selfUsername : String) (todoListId todoId : Nat) (t : TodoRow) : Bool :=
  t.todolist_id == todoListId && t.id == todoId && t.username == selfUsername

/-- The per-row effect of `SET done = NOT done` under the toggle filter. -/
def toggleUpdate (selfUsername : String) (todoListId todoId : Nat) (t : TodoRow) : TodoRow :=
  if toggleMatches selfUsername todoListId todoId t then { t with done := !t.done } else t

/-- The `toggleDoneTodo` method:
`UPDATE todos SET done = NOT done WHERE todolist_id = $1 AND id = $2 AND username = $3`,
returning the new store and `rowCount > 0`. -/
def toggleDoneTodo (selfUsername : String) (db : DB) (todoListId todoId : Nat) : DB × Bool :=
  let rowCount := (db.todos.filter (toggleMatches selfUsername todoListId todoId)).length
  ({ db with todos := db.todos.map (toggleUpdate selfUsername todoListId todoId) },
    decide (rowCount > 0))

/-- The `WHERE` filter of `markAllDone`. -/
def markAllMatches (selfUsername : String) (todoListId : Nat) (t : TodoRow) : Bool :=
  t.todolist_id == todoListId && t.username == selfUsername

/-- The per-row effect of `SET done = true` under the mark-all filter. -/
def markAllUpdate (selfUsername : String) (todoListId : Nat) (t : TodoRow) : TodoRow :=
  if markAllMatches selfUsername todoListId t then { t with done := true } else t

/-- The `markAllDone` method:
`UPDATE todos SET done = true WHERE todolist_id = $1 AND username = $2`,
returning the new store and `rowCount > 0`; the store reports every row
matched by the filter, whether or not its value changed. -/
def markAllDone (selfUsername : String) (db : DB) (todoListId : Nat) : DB × Bool :=
  let rowCount := (db.todos.filter (markAllMatches selfUsername todoListId)).length
  ({ db with todos := db.todos.map (markAllUpdate selfUsername todoListId) },
    decide (rowCount > 0))

/-- The id the store assigns to a newly inserted todo row. -/
def freshTodoId (db : DB) : Nat :=
  (db.todos.map (fun t => t.id)).foldr Nat.max 0 + 1

/-- The id the store assigns to a newly inserted todo-list row. -/
def freshListId (db : DB) : Nat :=
  (db.todolists.map (fun l => l.id)).foldr Nat.max 0 + 1

/-- The `addTodo` method:
`INSERT INTO todos (title, todolist_id, username) VALUES ($1, $2, $3)`.
The statement itself checks nothing beyond the store's foreign key on
`todolist_id`; the row is inserted with the constructed identity and
`done` defaulted to `false`, and the method returns `rowCount > 0`. -/
def addTodo (selfUsername : String) (db : DB) (todoTitle : String) (todoListId : Nat) :
    Except DbError (DB × Bool) :=
  if db.todolists.any (fun l => l.id == todoListId) then
    Except.ok
      ({ db with todos :=
          db.todos ++ [⟨freshTodoId db, todoTitle, false, todoListId, selfUsername⟩] },
        decide ((1 : Nat) > 0))
  else
    Except.error ⟨"insert or update on table todos violates foreign key constraint"⟩

/-- The `isUniqueConstraintViolation` method:
`/duplicate key value violates unique constraint/.test(String(error))`. -/
def isUniqueConstraintViolation (error : DbError) : Bool :=
  strContains error.message "duplicate key value violates unique constraint"

/-- The message of the store's rejection of a duplicate
`(username, title)` pair on `todolists`. -/
def uniqueViolationMessage : String :=
  "error: duplicate key value violates unique constraint todolists_title_username_key"

/-- The store's side of `INSERT INTO todolists (title, username) VALUES ($1, $2)`:
rejected with a uniqueness violation when the `(username, title)` pair
already exists, otherwise the row is appended and one row reported. -/
def createTodoListInsert (db : DB) (title username : String) :
    Except DbError (DB × Nat) :=
  if db.todolists.any (fun l => l.title == title && l.username == username) then
    Except.error ⟨uniqueViolationMessage⟩
  else
    Except.ok ({ db with todolists := db.todolists ++ [⟨freshListId db, title, username⟩] }, 1)

/-- The try/catch of `createTodoList` around an arbitrary outcome of the
insert statement: success yields `rowCount > 0`, a uniqueness violation
yields `false`, any other error is re-thrown. -/
def createTodoListHandle (db : DB) (r : Except DbError (DB × Nat)) :
    Except DbError (DB × Bool) :=
  match r with
  | Except.ok (dbNew, rowCount) => Except.ok (dbNew, decide (rowCount > 0))
  | Except.error e =>
      if isUniqueConstraintViolation e then Except.ok (db, false) else Except.error e

/-- The `createTodoList` method. -/
def createTodoList (selfUsername : String) (db : DB) (title : String) :
    Except DbError (DB × Bool) :=
  createTodoListHandle db (createTodoListInsert db title selfUsername)

/-- Fixture: a list row owned by alice. -/
def aliceList : TodoListRow := ⟨1, "Groceries", "alice"⟩

/-- Fixture: a list row owned by bob. -/
def bobList : TodoListRow := ⟨2, "Chores", "bob"⟩

/-- Fixture: an undone todo of alice on her list. -/
def aliceTodo : TodoRow := ⟨10, "Buy milk", false, 1, "alice"⟩

/-- Fixture: a done todo of bob on his list. -/
def bobTodo : TodoRow := ⟨11, "Sweep", true, 2, "bob"⟩

/-- Fixture: a small store holding one user and one list with one todo
for each of alice and bob. -/
def dbW : DB := ⟨[⟨"alice", "hashA"⟩], [aliceList, bobList], [aliceTodo, bobTodo]⟩

/-- Fixture: bob's list as an in-memory value with no todos attached. -/
def bobListView : TodoList := ⟨2, "Chores", "bob", []⟩

/-! ### Properties of the ordering model -/

theorem lexLe_refl : ∀ xs : List Char, lexLe xs xs = true
  | [] => rfl
  | a :: as => by simp [lexLe, lexLe_refl as]

theorem lexLe_total : ∀ xs ys : List Char, lexLe xs ys = true ∨ lexLe ys xs = true
  | [], _ => Or.inl rfl
  | _ :: _, [] => Or.inr rfl
  | a :: as, b :: bs => by
    by_cases h : a = b
    · subst h
      simpa [lexLe] using lexLe_total as bs
    · rcases lt_trichotomy a b with hlt | heq | hgt
      · exact Or.inl (by simp [lexLe, h, hlt])
      · exact absurd heq h
      · exact Or.inr (by simp [lexLe, Ne.symm h, hgt])

theorem lexLe_trans : ∀ xs ys zs : List Char,
    lexLe xs ys = true → lexLe ys zs = true → lexLe xs zs = true
  | [], _, _, _, _ => rfl
  | _ :: _, [], _, h1, _ => by simp [lexLe] at h1
  | _ :: _, _ :: _, [], _, h2 => by simp [lexLe] at h2
  | a :: as, b :: bs, c :: cs, h1, h2 => by
    by_cases hab : a = b <;> by_cases hbc : b = c
    · subst hab; subst hbc
      simp only [lexLe, if_pos rfl] at h1 h2 ⊢
      exact lexLe_trans as bs cs h1 h2
    · subst hab
      simp [lexLe, hbc] at h2 ⊢
      exact h2
    · subst hbc
      simp [lexLe, hab] at h1 ⊢
      exact h1
    · simp [lexLe, hab] at h1
      simp [lexLe, hbc] at h2
      have hac : a < c := lt_trans h1 h2
      simp [lexLe, ne_of_lt hac, hac]

theorem lowerLe_total (s t : String) : lowerLe s t = true ∨ lowerLe t s = true :=
  lexLe_total _ _

theorem lowerLe_trans {s t u : String} (h1 : lowerLe s t = true)
    (h2 : lowerLe t u = true) : lowerLe s u = true :=
  lexLe_trans _ _ _ h1 h2

theorem listTitleLe_total (a b : TodoListRow) : listTitleLe a b ∨ listTitleLe b a :=
  lowerLe_total _ _

theorem listTitleLe_trans {a b c : TodoListRow} (h1 : listTitleLe a b)
    (h2 : listTitleLe b c) : listTitleLe a c :=
  lowerLe_trans h1 h2

theorem todoLe_total (a b : TodoRow) : todoLe a b ∨ todoLe b a := by
  unfold todoLe todoOrderB
  cases ha : a.done <;> cases hb : b.done <;> simp [ha, hb]
  · exact lowerLe_total _ _
  · exact lowerLe_total _ _

theorem todoLe_trans {a b c : TodoRow} (h1 : todoLe a b) (h2 : todoLe b c) :
    todoLe a c := by
  unfold todoLe todoOrderB at h1 h2 ⊢
  cases ha : a.done <;> cases hb : b.done <;> cases hc : c.done <;>
    simp [ha, hb, hc] at h1 h2 ⊢ <;>
    first
      | exact lowerLe_trans h1 h2
      | exact h1
      | exact h2
      | trivial

/-! ### Properties of the row-update functions -/

theorem toggleMatches_update (selfUsername : String) (todoListId todoId : Nat) (t : TodoRow) :
    toggleMatches selfUsername todoListId todoId (toggleUpdate selfUsername todoListId todoId t)
      = toggleMatches selfUsername todoListId todoId t := by
  obtain ⟨i, ti, d, li, u⟩ := t
  by_cases h : (li == todoListId && i == todoId && u == selfUsername) = true <;>
    simp [toggleUpdate, toggleMatches, h]

theorem markAllMatches_update (selfUsername : String) (todoListId : Nat) (t : TodoRow) :
    markAllMatches selfUsername todoListId (markAllUpdate selfUsername todoListId t)
      = markAllMatches selfUsername todoListId t := by
  obtain ⟨i, ti, d, li, u⟩ := t
  by_cases h : (li == todoListId && u == selfUsername) = true <;>
    simp [markAllUpdate, markAllMatches, h]

theorem markAllUpdate_idem (selfUsername : String) (todoListId : Nat) (t : TodoRow) :
    markAllUpdate selfUsername todoListId (markAllUpdate selfUsername todoListId t)
      = markAllUpdate selfUsername todoListId t := by
  obtain ⟨i, ti, d, li, u⟩ := t
  by_cases h : (li == todoListId && u == selfUsername) = true <;>
    simp [markAllUpdate, markAllMatches, h]

theorem todoLe_done {a b : TodoRow} (h : todoLe a b) (ha : a.done = true) :
    b.done = true := by
  unfold todoLe todoOrderB at h
  cases hb : b.done
  · simp [ha, hb] at h
  · rfl

theorem todoLe_title {a b : TodoRow} (h : todoLe a b) (hd : a.done = b.done) :
    lowerLe a.title b.title = true := by
  unfold todoLe todoOrderB at h
  rw [hd] at h
  cases hb : b.done <;> rw [hb] at h <;> simpa using h

/-- The partition step keeps done lists after undone lists, preserves
each group's relative order, and permutes its input. -/
theorem partitionTodoLists_spec (ls : List TodoList) :
    (partitionTodoLists ls).Perm ls
    ∧ List.Pairwise (fun x y => isDoneTodoList x = true → isDoneTodoList y = true)
        (partitionTodoLists ls)
    ∧ (partitionTodoLists ls).filter (fun l => !isDoneTodoList l)
        = ls.filter (fun l => !isDoneTodoList l)
    ∧ (partitionTodoLists ls).filter (fun l => isDoneTodoList l)
        = ls.filter (fun l => isDoneTodoList l) := by
  have hrep : partitionTodoLists ls
      = ls.filter (fun l => !isDoneTodoList l) ++ ls.filter (fun l => isDoneTodoList l) := rfl
  refine ⟨?_, ?_, ?_, ?_⟩
  · rw [hrep]
    exact List.perm_append_comm.trans (List.filter_append_perm _ _)
  · rw [hrep]
    refine List.pairwise_append.mpr ⟨?_, ?_, ?_⟩
    · refine List.pairwise_of_forall_mem_list ?_
      intro x hx y hy hd
      have h2 := (List.mem_filter.mp hx).2
      rw [hd] at h2
      simp at h2
    · refine List.pairwise_of_forall_mem_list ?_
      intro x hx y hy _
      exact (List.mem_filter.mp hy).2
    · intro x hx y hy _
      exact (List.mem_filter.mp hy).2
  · have h1 : (ls.filter (fun l => !isDoneTodoList l)).filter (fun l => !isDoneTodoList l)
        = ls.filter (fun l => !isDoneTodoList l) :=
      List.filter_eq_self.mpr (fun x hx => (List.mem_filter.mp hx).2)
    have h2 : (ls.filter (fun l => isDoneTodoList l)).filter (fun l => !isDoneTodoList l)
        = [] :=
      List.filter_eq_nil_iff.mpr (fun x hx => by simp [(List.mem_filter.mp hx).2])
    rw [hrep, List.filter_append, h1, h2, List.append_nil]
  · have h1 : (ls.filter (fun l => !isDoneTodoList l)).filter (fun l => isDoneTodoList l)
        = [] :=
      List.filter_eq_nil_iff.mpr (fun x hx => by
        have h2 := (List.mem_filter.mp hx).2
        simp only [Bool.not_eq_true'] at h2
        simp [h2])
    have h2 : (ls.filter (fun l => isDoneTodoList l)).filter (fun l => isDoneTodoList l)
        = ls.filter (fun l => isDoneTodoList l) :=
      List.filter_eq_self.mpr (fun x hx => (List.mem_filter.mp hx).2)
    rw [hrep, List.filter_append, h1, h2, List.nil_append]

/-! ### Claim theorems -/

/-- C2: `isDoneTodoList` returns true iff the list's todos are non-empty
and every one of them is done; in particular it returns false when the
todos list is empty. -/
theorem isDoneTodoList_spec (todoList : TodoList) :
    (isDoneTodoList todoList = true ↔
      todoList.todos ≠ [] ∧ ∀ t ∈ todoList.todos, t.done = true)
    ∧ (todoList.todos = [] → isDoneTodoList todoList = false) := by
  constructor
  · simp [isDoneTodoList, List.length_pos, List.all_eq_true]
  · intro h
    simp [isDoneTodoList, h]

/-- Witness for C2 at a concrete list with no todos. -/
theorem isDoneTodoList_spec_witness :
    isDoneTodoList ⟨1, "Empty", "alice", []⟩ = false :=
  (isDoneTodoList_spec ⟨1, "Empty", "alice", []⟩).2 rfl

/-- C9: `authenticated` returns false when no user row matches the
supplied username; otherwise it returns the hash comparison of the
supplied password against the first matching row's stored hash; and its
result does not depend on the identity bound at construction. -/
theorem authenticated_spec (compare : String → String → Bool)
    (selfA selfB : String) (db : DB) (username password : String) :
    ((∀ u ∈ db.users, u.username ≠ username) →
      authenticated compare selfA db username password = false)
    ∧ (∀ u rest, usersQuery db username = u :: rest →
      authenticated compare selfA db username password = compare password u.password)
    ∧ authenticated compare selfA db username password
        = authenticated compare selfB db username password := by
  refine ⟨?_, ?_, rfl⟩
  · intro h
    have hnil : usersQuery db username = [] := by
      simp only [usersQuery, List.filter_eq_nil_iff]
      intro u hu
      simpa using h u hu
    simp [authenticated, hnil]
  · intro u rest h
    simp [authenticated, h]

/-- Witness for C9: an unknown username yields false on the fixture store. -/
theorem authenticated_spec_witness :
    authenticated (fun _ _ => true) "alice" dbW "mallory" "pw" = false :=
  (authenticated_spec (fun _ _ => true) "alice" "bob" dbW "mallory" "pw").1 (by decide)

/-- C5 counterexample: when the executed statement fails, `dbQuery` does
not release the connection it opened. -/
theorem dbQuery_release_counterexample :
    ¬ ((dbQuery (Except.error ⟨"connection terminated"⟩ :
          Except DbError (List TodoRow))).released = true) := by
  decide

/-- C5 amended: `dbQuery` opens a connection on every call and propagates
the statement's outcome unmodified, but it releases the connection if and
only if the statement succeeded; on failure the connection stays open. -/
theorem dbQuery_spec {α : Type} (outcome : Except DbError α) :
    (dbQuery outcome).result = outcome
    ∧ (dbQuery outcome).connected = true
    ∧ ((dbQuery outcome).released = true ↔ ∃ r, outcome = Except.ok r) := by
  cases outcome <;> simp [dbQuery]

/-- C4: `createTodoList` returns false — with the store unchanged and no
error escaping — when the insert is rejected as a duplicate of an
existing (username, title) pair; inserting a fresh title returns true;
and a store error that is not a uniqueness violation is re-thrown by the
catch block unmodified. -/
theorem createTodoList_spec (selfUsername title : String) (db : DB) :
    ((∃ l ∈ db.todolists, l.title = title ∧ l.username = selfUsername) →
      createTodoList selfUsername db title = Except.ok (db, false))
    ∧ ((∀ l ∈ db.todolists, ¬(l.title = title ∧ l.username = selfUsername)) →
      ∃ dbNew, createTodoList selfUsername db title = Except.ok (dbNew, true))
    ∧ (∀ e, isUniqueConstraintViolation e = false →
      createTodoListHandle db (Except.error e) = Except.error e) := by
  refine ⟨?_, ?_, ?_⟩
  · rintro ⟨l, hl, ht, hu⟩
    have hany :
        db.todolists.any (fun l => l.title == title && l.username == selfUsername) = true := by
      simp only [List.any_eq_true, Bool.and_eq_true, beq_iff_eq]
      exact ⟨l, hl, ht, hu⟩
    have huniq : isUniqueConstraintViolation ⟨uniqueViolationMessage⟩ = true := by decide
    simp [createTodoList, createTodoListInsert, hany, createTodoListHandle, huniq]
  · intro h
    have hany :
        db.todolists.any (fun l => l.title == title && l.username == selfUsername) = false := by
      simp only [Bool.eq_false_iff, ne_eq, List.any_eq_true, Bool.and_eq_true, beq_iff_eq]
      rintro ⟨l, hl, ht, hu⟩
      exact h l hl ⟨ht, hu⟩
    refine ⟨{ db with todolists := db.todolists ++ [⟨freshListId db, title, selfUsername⟩] }, ?_⟩
    simp [createTodoList, createTodoListInsert, hany, createTodoListHandle]
  · intro e he
    simp [createTodoListHandle, he]

/-- Witness for C4: creating a second Groceries list for alice returns
false without an error escaping. -/
theorem createTodoList_spec_witness :
    createTodoList "alice" dbW "Groceries" = Except.ok (dbW, false) :=
  (createTodoList_spec "alice" "Groceries" dbW).1 ⟨aliceList, by decide⟩

/-- C10: `addTodo` checks neither existence-for-the-identity nor
ownership: whenever some list row carries the target id — whoever owns
it — the insert succeeds, the method returns true, and the row it
appends carries the constructed identity as its username. -/
theorem addTodo_spec (selfUsername : String) (db : DB) (todoTitle : String)
    (todoListId : Nat) (l : TodoListRow) (hl : l ∈ db.todolists)
    (hid : l.id = todoListId) :
    addTodo selfUsername db todoTitle todoListId
      = Except.ok
          ({ db with todos :=
              db.todos ++ [⟨freshTodoId db, todoTitle, false, todoListId, selfUsername⟩] },
            true) := by
  have hany : db.todolists.any (fun l => l.id == todoListId) = true := by
    simp only [List.any_eq_true, beq_iff_eq]
    exact ⟨l, hl, hid⟩
  simp [addTodo, hany]

/-- Witness for C10: alice adds a todo onto bob's list and the call
succeeds, storing the row under alice's name. -/
theorem addTodo_spec_witness :
    addTodo "alice" dbW "Sneak" 2
      = Except.ok
          ({ dbW with todos :=
              dbW.todos ++ [⟨freshTodoId dbW, "Sneak", false, 2, "alice"⟩] }, true) :=
  addTodo_spec "alice" dbW "Sneak" 2 bobList (by decide) (by decide)

/-- C6: `toggleDoneTodo` returns true iff some stored todo matches the
list id, the todo id, and the constructed identity all at once; when no
row matches, the store is returned unchanged together with false;
matching rows reappear with their done flag flipped and non-matching
rows reappear untouched. -/
theorem toggleDoneTodo_spec (selfUsername : String) (db : DB) (todoListId todoId : Nat) :
    ((toggleDoneTodo selfUsername db todoListId todoId).2 = true ↔
      ∃ t ∈ db.todos, toggleMatches selfUsername todoListId todoId t = true)
    ∧ ((∀ t ∈ db.todos, toggleMatches selfUsername todoListId todoId t = false) →
      toggleDoneTodo selfUsername db todoListId todoId = (db, false))
    ∧ (∀ t ∈ db.todos, toggleMatches selfUsername todoListId todoId t = true →
      { t with done := !t.done } ∈ (toggleDoneTodo selfUsername db todoListId todoId).1.todos)
    ∧ (∀ t ∈ db.todos, toggleMatches selfUsername todoListId todoId t = false →
      t ∈ (toggleDoneTodo selfUsername db todoListId todoId).1.todos) := by
  refine ⟨?_, ?_, ?_, ?_⟩
  · simp [toggleDoneTodo, List.length_pos_iff_exists_mem, List.mem_filter]
  · intro h
    have hmap : ∀ t ∈ db.todos, toggleUpdate selfUsername todoListId todoId t = id t := by
      intro t ht
      simp [toggleUpdate, h t ht]
    have hnil : db.todos.filter (toggleMatches selfUsername todoListId todoId) = [] :=
      List.filter_eq_nil_iff.mpr (fun t ht => by simp [h t ht])
    simp [toggleDoneTodo, hnil, List.map_congr_left hmap]
  · intro t ht hm
    have hmem := List.mem_map_of_mem (toggleUpdate selfUsername todoListId todoId) ht
    rw [toggleUpdate, if_pos hm] at hmem
    simpa [toggleDoneTodo] using hmem
  · intro t ht hm
    have hmem := List.mem_map_of_mem (toggleUpdate selfUsername todoListId todoId) ht
    rw [toggleUpdate, if_neg (by simp [hm])] at hmem
    simpa [toggleDoneTodo] using hmem

/-- Witness for C6: alice's undone todo on her own list is flipped to
done by a matching toggle call. -/
theorem toggleDoneTodo_spec_witness :
    { aliceTodo with done := !aliceTodo.done }
      ∈ (toggleDoneTodo "alice" dbW 1 10).1.todos :=
  (toggleDoneTodo_spec "alice" dbW 1 10).2.2.1 aliceTodo (by decide) (by decide)

/-- C7: `markAllDone` reports true iff at least one stored todo matches
the list id and the constructed identity — regardless of whether any
done flag changed value; afterwards every matching row is done; and the
whole call is idempotent: a second call returns the same store and the
same boolean as the first. -/
theorem markAllDone_spec (selfUsername : String) (db : DB) (todoListId : Nat) :
    ((markAllDone selfUsername db todoListId).2 = true ↔
      ∃ t ∈ db.todos, markAllMatches selfUsername todoListId t = true)
    ∧ (∀ t ∈ (markAllDone selfUsername db todoListId).1.todos,
      markAllMatches selfUsername todoListId t = true → t.done = true)
    ∧ markAllDone selfUsername (markAllDone selfUsername db todoListId).1 todoListId
        = markAllDone selfUsername db todoListId := by
  refine ⟨?_, ?_, ?_⟩
  · simp [markAllDone, List.length_pos_iff_exists_mem, List.mem_filter]
  · intro t ht hm
    simp only [markAllDone, List.mem_map] at ht
    obtain ⟨s, hs, rfl⟩ := ht
    by_cases h : markAllMatches selfUsername todoListId s = true
    · simp [markAllUpdate, h]
    · rw [markAllUpdate, if_neg h] at hm
      exact absurd hm h
  · obtain ⟨us, ls, ts⟩ := db
    have hmapmap : (ts.map (markAllUpdate selfUsername todoListId)).map
        (markAllUpdate selfUsername todoListId)
        = ts.map (markAllUpdate selfUsername todoListId) := by
      rw [List.map_map]
      exact List.map_congr_left (fun t _ => markAllUpdate_idem selfUsername todoListId t)
    have hlen : ((ts.map (markAllUpdate selfUsername todoListId)).filter
        (markAllMatches selfUsername todoListId)).length
        = (ts.filter (markAllMatches selfUsername todoListId)).length := by
      rw [List.filter_map, List.length_map]
      congr 1
      exact List.filter_congr
        (fun t _ => markAllMatches_update selfUsername todoListId t)
    simp only [markAllDone, Prod.mk.injEq, DB.mk.injEq]
    refine ⟨?_, ?_⟩
    · simp [hmapmap]
    · exact congrArg (fun n => decide (n > 0)) hlen

/-- Witness for C7: marking alice's list done twice is idempotent on the
fixture store. -/
theorem markAllDone_spec_witness :
    markAllDone "alice" (markAllDone "alice" dbW 1).1 1 = markAllDone "alice" dbW 1 :=
  (markAllDone_spec "alice" dbW 1).2.2

/-- C8: `sortedTodos` returns exactly the stored todos of the given list
owned by the constructed identity (a permutation of the store's filtered
rows), with every not-done todo before every done todo, and each of the
two done-status groups in case-insensitive ascending title order. -/
theorem sortedTodos_spec (selfUsername : String) (db : DB) (todoList : TodoList) :
    (sortedTodos selfUsername db todoList).Perm
      (db.todos.filter (fun t => t.todolist_id == todoList.id && t.username == selfUsername))
    ∧ List.Pairwise (fun x y : TodoRow => x.done = true → y.done = true)
        (sortedTodos selfUsername db todoList)
    ∧ List.Sorted (fun x y : TodoRow => lowerLe x.title y.title = true)
        ((sortedTodos selfUsername db todoList).filter (fun t => !t.done))
    ∧ List.Sorted (fun x y : TodoRow => lowerLe x.title y.title = true)
        ((sortedTodos selfUsername db todoList).filter (fun t => t.done)) := by
  have hsorted : List.Sorted todoLe (sortedTodos selfUsername db todoList) := by
    haveI : IsTotal TodoRow todoLe := ⟨todoLe_total⟩
    haveI : IsTrans TodoRow todoLe := ⟨fun x y z => todoLe_trans⟩
    exact List.sorted_insertionSort todoLe _
  refine ⟨List.perm_insertionSort _ _, ?_, ?_, ?_⟩
  · exact hsorted.imp (fun h => fun hd => todoLe_done h hd)
  · have hs : List.Sorted todoLe
        ((sortedTodos selfUsername db todoList).filter (fun t => !t.done)) :=
      hsorted.filter _
    refine hs.imp_of_mem ?_
    intro x y hx hy h
    have hx2 := (List.mem_filter.mp hx).2
    have hy2 := (List.mem_filter.mp hy).2
    simp only [Bool.not_eq_true'] at hx2 hy2
    exact todoLe_title h (hx2.trans hy2.symm)
  · have hs : List.Sorted todoLe
        ((sortedTodos selfUsername db todoList).filter (fun t => t.done)) :=
      hsorted.filter _
    refine hs.imp_of_mem ?_
    intro x y hx hy h
    have hx2 := (List.mem_filter.mp hx).2
    have hy2 := (List.mem_filter.mp hy).2
    exact todoLe_title h (hx2.trans hy2.symm)

/-- Witness for C8: the sorted todos of bob's list on the fixture store
are exactly the store's rows for that list and owner. -/
theorem sortedTodos_spec_witness :
    (sortedTodos "bob" dbW bobListView).Perm
      (dbW.todos.filter (fun t => t.todolist_id == bobListView.id && t.username == "bob")) :=
  (sortedTodos_spec "bob" dbW bobListView).1

/-- C3: `sortedTodoLists` returns exactly the identity's lists — a
permutation of the store's rows for that username, each with its todos
attached; every not-fully-done list precedes every fully-done list; the
partition is stable, each group being the done-status filter of the
fetched order; and each group is in case-insensitive ascending title
order, inherited from the fetch's ORDER BY. -/
theorem sortedTodoLists_spec (selfUsername : String) (db : DB) :
    (sortedTodoLists selfUsername db).Perm
      ((db.todolists.filter (fun l => l.username == selfUsername)).map
        (attachTodos (allTodosQuery db selfUsername)))
    ∧ List.Pairwise (fun x y : TodoList =>
        isDoneTodoList x = true → isDoneTodoList y = true)
        (sortedTodoLists selfUsername db)
    ∧ ((sortedTodoLists selfUsername db).filter (fun l => !isDoneTodoList l)
        = ((allTodoListsQuery db selfUsername).map
            (attachTodos (allTodosQuery db selfUsername))).filter
            (fun l => !isDoneTodoList l)
      ∧ (sortedTodoLists selfUsername db).filter (fun l => isDoneTodoList l)
        = ((allTodoListsQuery db selfUsername).map
            (attachTodos (allTodosQuery db selfUsername))).filter
            (fun l => isDoneTodoList l))
    ∧ (List.Sorted (fun x y : TodoList => lowerLe x.title y.title = true)
        ((sortedTodoLists selfUsername db).filter (fun l => !isDoneTodoList l))
      ∧ List.Sorted (fun x y : TodoList => lowerLe x.title y.title = true)
        ((sortedTodoLists selfUsername db).filter (fun l => isDoneTodoList l))) := by
  obtain ⟨hperm0, hpw0, hGu0, hGd0⟩ := partitionTodoLists_spec
    ((allTodoListsQuery db selfUsername).map (attachTodos (allTodosQuery db selfUsername)))
  have hres : sortedTodoLists selfUsername db
      = partitionTodoLists
          ((allTodoListsQuery db selfUsername).map
            (attachTodos (allTodosQuery db selfUsername))) := rfl
  have hsortedRows : List.Sorted listTitleLe (allTodoListsQuery db selfUsername) := by
    haveI : IsTotal TodoListRow listTitleLe := ⟨listTitleLe_total⟩
    haveI : IsTrans TodoListRow listTitleLe := ⟨fun x y z => listTitleLe_trans⟩
    exact List.sorted_insertionSort listTitleLe _
  have hsortedFetched : List.Sorted (fun x y : TodoList => lowerLe x.title y.title = true)
      ((allTodoListsQuery db selfUsername).map
        (attachTodos (allTodosQuery db selfUsername))) :=
    List.Pairwise.map (attachTodos (allTodosQuery db selfUsername)) (fun x y h => h)
      hsortedRows
  refine ⟨?_, ?_, ⟨?_, ?_⟩, ⟨?_, ?_⟩⟩
  · rw [hres]
    exact hperm0.trans (List.Perm.map _ (List.perm_insertionSort _ _))
  · rw [hres]
    exact hpw0
  · rw [hres]
    exact hGu0
  · rw [hres]
    exact hGd0
  · rw [hres, hGu0]
    exact hsortedFetched.filter _
  · rw [hres, hGd0]
    exact hsortedFetched.filter _

/-- Witness for C3: on the fixture store, alice's view is a permutation
of her stored lists with todos attached. -/
theorem sortedTodoLists_spec_witness :
    (sortedTodoLists "alice" dbW).Perm
      ((dbW.todolists.filter (fun l => l.username == "alice")).map
        (attachTodos (allTodosQuery dbW "alice"))) :=
  (sortedTodoLists_spec "alice" dbW).1

/-- C1: every read operation filters by the constructed identity, so its
results contain only rows whose username is that identity; hence for two
distinct identities, no row of one is ever returned by a read scoped to
the other — across `sortedTodoLists`, `loadTodoList`, `loadTodo`, and
`sortedTodos`. -/
theorem ownership_isolation (db : DB) (a b : String) (hab : a ≠ b) :
    (∀ l ∈ sortedTodoLists b db, l.username = b ∧ l.username ≠ a
      ∧ ∀ t ∈ l.todos, t.username = b ∧ t.username ≠ a)
    ∧ (∀ todoListId l, loadTodoList b db todoListId = some l →
      l.username = b ∧ l.username ≠ a ∧ ∀ t ∈ l.todos, t.username = b ∧ t.username ≠ a)
    ∧ (∀ todoListId todoId t, loadTodo b db todoListId todoId = some t →
      t.username = b ∧ t.username ≠ a)
    ∧ (∀ todoList, ∀ t ∈ sortedTodos b db todoList, t.username = b ∧ t.username ≠ a) := by
  have hne : ∀ s : String, s = b → s ≠ a := fun s hs => hs ▸ Ne.symm hab
  have husername : ∀ t ∈ allTodosQuery db b, t.username = b := by
    intro t ht
    simpa using (List.mem_filter.mp ht).2
  refine ⟨?_, ?_, ?_, ?_⟩
  · intro l hl
    have hl2 : l ∈ (allTodoListsQuery db b).map (attachTodos (allTodosQuery db b)) :=
      (partitionTodoLists_spec
        ((allTodoListsQuery db b).map (attachTodos (allTodosQuery db b)))).1.mem_iff.mp hl
    obtain ⟨r, hr, rfl⟩ := List.mem_map.mp hl2
    have hr2 : r ∈ db.todolists.filter (fun x => x.username == b) :=
      (List.perm_insertionSort listTitleLe _).mem_iff.mp hr
    have hru : r.username = b := by simpa using (List.mem_filter.mp hr2).2
    refine ⟨hru, hne _ hru, ?_⟩
    intro t ht
    have ht2 : t ∈ (allTodosQuery db b).filter (fun s => r.id == s.todolist_id) := ht
    have ht3 : t ∈ allTodosQuery db b := (List.mem_filter.mp ht2).1
    exact ⟨husername t ht3, hne _ (husername t ht3)⟩
  · intro todoListId l hl
    simp only [loadTodoList] at hl
    cases hfl : db.todolists.filter (fun x => x.id == todoListId && x.username == b) with
    | nil =>
      rw [hfl] at hl
      exact absurd hl (by simp)
    | cons r rest =>
      rw [hfl] at hl
      have hlr := Option.some.inj hl
      subst hlr
      have hrmem : r ∈ db.todolists.filter (fun x => x.id == todoListId && x.username == b) := by
        rw [hfl]
        exact List.mem_cons_self r rest
      have hru : r.username = b := by
        have h2 := (List.mem_filter.mp hrmem).2
        simp at h2
        exact h2.2
      refine ⟨hru, hne _ hru, ?_⟩
      intro t ht
      have ht2 : t ∈ db.todos.filter
          (fun s => s.todolist_id == todoListId && s.username == b) := ht
      have h2 := (List.mem_filter.mp ht2).2
      simp at h2
      exact ⟨h2.2, hne _ h2.2⟩
  · intro todoListId todoId t ht
    simp only [loadTodo] at ht
    have hmem := List.mem_of_mem_head? ht
    have h2 := (List.mem_filter.mp hmem).2
    simp at h2
    exact ⟨h2.2, hne _ h2.2⟩
  · intro todoList t ht
    have ht2 : t ∈ db.todos.filter
        (fun s => s.todolist_id == todoList.id && s.username == b) := by
      simpa only [sortedTodos, List.mem_insertionSort] using ht
    have h2 := (List.mem_filter.mp ht2).2
    simp at h2
    exact ⟨h2.2, hne _ h2.2⟩

/-- Witness for C1: on the fixture store, the todo that a read scoped to
bob returns belongs to bob and not to alice. -/
theorem ownership_isolation_witness :
    bobTodo.username = "bob" ∧ bobTodo.username ≠ "alice" :=
  (ownership_isolation dbW "alice" "bob" (by decide)).2.2.1 2 11 bobTodo (by decide)

end TodoApp
